import Mathlib

/-!
Verification development for the streaming text-to-speech relay server
(source files: server/tts_streamer.py, server/ws_server.py,
server/agent_direct.py).

The development shallowly embeds the relevant program parts:

* Python float arithmetic in the chunk-duration computation
  int(len(audio_bytes) / (2 * 22050) * 1000) is modelled exactly:
  IEEE-754 double rounding (round to nearest, ties to even, 53-bit
  significand) is implemented on unnormalized integer fractions.
  Subnormal and overflow ranges are irrelevant at the byte counts a
  chunk can carry, and the exponent search uses enough fuel for any
  byte count below 2 to the 128, which covers every representable
  input; the model is exact on that range.
* Python strings are lists of characters; str.rstrip and str.strip
  are modelled on the ASCII whitespace characters (the inputs that
  matter here contain no exotic Unicode space characters).
* Python int() truncation toward zero is Int.tdiv, and floor division
  of nonnegative quantities is Int.ediv.
* The WebSocket receive loops of ElevenLabsStreamingSession.receive_audio
  and ElevenLabsStreamer.stream_text, whose bodies are identical, are one
  recursive function over the list of inbound provider messages; base64
  decoding is elided, messages carry the decoded byte list directly (the
  emptiness check on the base64 string coincides with emptiness of the
  decoded bytes).
* The TTSBroadcaster coordinator of ws_server.py is a record of its
  instance fields; the Python set of consumer connections is a list of
  distinct handles, and per-consumer send failure is a predicate on
  handles.  The background audio-forwarding task is linearized at the
  point where handle_finish awaits it.
-/

set_option maxRecDepth 100000

namespace TTSRelay

/-! ## Exact model of IEEE-754 double arithmetic on integer fractions -/

/-- Unnormalized fraction: numerator and denominator, denominator kept
positive by construction at every use site. -/
structure Frac where
  num : ℤ
  den : ℤ
deriving DecidableEq

/-- Fuel-driven binary logarithm on naturals; with fuel f it is exact for
every n below 2 to the f. -/
def log2fuel : ℕ → ℕ → ℕ
  | 0, _ => 0
  | fuel+1, n => if 2 ≤ n then log2fuel fuel (n / 2) + 1 else 0

/-- Floor of log2, exact below 2 to the 256 (far beyond the double range
needed here). -/
def natLog2 (n : ℕ) : ℕ := log2fuel 256 n

/-- Ceiling of log2: least k with n at most 2 to the k. -/
def natClog2 (n : ℕ) : ℕ := if n ≤ 1 then 0 else natLog2 (n - 1) + 1

/-- Exponent of the binary interval containing num/den (both positive):
the unique e with 2^e at most num/den and num/den below 2^(e+1). -/
def flExp (num den : ℤ) : ℤ :=
  if den ≤ num then (natLog2 (num.ediv den).toNat : ℤ)
  else -(natClog2 ((den + num - 1).ediv num).toNat : ℤ)

/-- Round the fraction sn/sd (sd positive) to the nearest integer, ties
to even: the rounding step of IEEE-754 round-to-nearest. -/
def roundHalfEven (sn sd : ℤ) : ℤ :=
  let q0 := sn.ediv sd
  let r := sn - q0 * sd
  if 2 * r < sd then q0
  else if sd < 2 * r then q0 + 1
  else if q0 % 2 = 0 then q0 else q0 + 1

/-- Round a positive fraction to the nearest binary64 double: scale the
value into the 53-bit significand window and round half to even. -/
def flPos (num den : ℤ) : Frac :=
  let e : ℤ := flExp num den
  if 52 ≤ e then
    Frac.mk (roundHalfEven num (den * 2 ^ (e - 52).toNat) * 2 ^ (e - 52).toNat) 1
  else
    Frac.mk (roundHalfEven (num * 2 ^ (52 - e).toNat) den) (2 ^ (52 - e).toNat)

/-- Correctly rounded double value of a fraction (normal range; zero and
negative inputs never occur in the program except as exactly zero, which
is returned exactly). -/
def fl (f : Frac) : Frac :=
  if f.num ≤ 0 ∨ f.den ≤ 0 then Frac.mk 0 1 else flPos f.num f.den

/-- Python int() applied to a float value: truncation toward zero. -/
def pyInt (f : Frac) : ℤ := f.num.tdiv f.den

/-- Embedding of int(len(audio_bytes) / (2 * 22050) * 1000) from
tts_streamer.py lines 164 and 358: the byte count is divided by 44100 in
double arithmetic, the quotient is multiplied by the exact double 1000,
and the product is truncated to an integer. -/
def audio_duration_ms (nBytes : ℕ) : ℤ :=
  let x := fl (Frac.mk (nBytes : ℤ) (2 * 22050))
  pyInt (fl (Frac.mk (x.num * 1000) x.den))

/-- Chunk duration as the specification words it, in exact rational
arithmetic: floor(byteLength / (2 x 22050) x 1000).  This definition
follows the words of the spec, for comparison with the embedded code. -/
def exact_duration_ms (nBytes : ℕ) : ℤ := ((nBytes : ℤ) * 1000).ediv (2 * 22050)

/-! ## Text buffering of DirectTTSClient (agent_direct.py) -/

/-- ASCII whitespace characters stripped by Python str.strip (the full
Python set also strips some Unicode space characters, which never occur
in the inputs considered here). -/
def py_whitespace : List Char := [' ', '\t', '\n', '\x0b', '\x0c', '\r']

/-- Model of Python str.rstrip() on a character list. -/
def rstrip (l : List Char) : List Char :=
  (l.reverse.dropWhile (fun c => py_whitespace.contains c)).reverse

/-- Model of Python str.strip() on a character list. -/
def strip (l : List Char) : List Char :=
  (rstrip l).dropWhile (fun c => py_whitespace.contains c)

/-- Sentence-terminal characters of _should_flush_buffer (agent_direct.py
line 123): period, exclamation mark, question mark, Arabic question mark,
Arabic triple dot. -/
def sentence_terminals : List Char := ['.', '!', '?', '؟', '؞']

/-- Condition of agent_direct.py line 123: the right-stripped buffer ends
with a sentence-terminal mark. -/
def ends_sentence_terminal (buffer : List Char) : Bool :=
  match (rstrip buffer).getLast? with
  | some c => sentence_terminals.contains c
  | none => false

/-- Tail window of agent_direct.py line 133: the last 20 characters when
the buffer is longer than 20, the whole buffer otherwise. -/
def tail_window (buffer : List Char) : List Char :=
  if 20 < buffer.length then buffer.drop (buffer.length - 20) else buffer

/-- Embedding of DirectTTSClient._should_flush_buffer (agent_direct.py
lines 108-143): empty buffer never flushes; at twice the threshold always
flush; from 10 characters flush on a sentence-terminal ending; from the
threshold flush when the tail window holds a Latin or Arabic comma or the
buffer ends with a space character. -/
def should_flush_buffer (threshold : ℕ) (buffer : List Char) : Bool :=
  if buffer.isEmpty then false
  else if threshold * 2 ≤ buffer.length then true
  else if (10 ≤ buffer.length : Bool) && ends_sentence_terminal buffer then true
  else if (threshold ≤ buffer.length : Bool) &&
      ((tail_window buffer).contains ',' || (tail_window buffer).contains '،' ||
        buffer.getLast? == some ' ') then true
  else false

/-- Embedding of DirectTTSClient._flush_buffer (agent_direct.py lines
145-171): a whitespace-only buffer is kept and nothing is sent; otherwise
the buffer is sent, a space appended when it does not already end with
one, and the buffer is cleared.  Returns the new buffer and the sent
segment. -/
def flush_buffer (buffer : List Char) : List Char × Option (List Char) :=
  if (strip buffer).isEmpty then (buffer, none)
  else if buffer.getLast? == some ' ' then ([], some buffer)
  else ([], some (buffer ++ [' ']))

/-- Embedding of DirectTTSClient.append_text (agent_direct.py lines
88-106): concatenate the fragment, then flush when the decision function
says so. -/
def append_text (threshold : ℕ) (buffer : List Char) (text : List Char) :
    List Char × Option (List Char) :=
  if should_flush_buffer threshold (buffer ++ text) then flush_buffer (buffer ++ text)
  else (buffer ++ text, none)

/-- Embedding of DirectTTSClient.finish_stream (agent_direct.py lines
173-194): flush a residual non-whitespace buffer, then reset the buffer
(the finish_tts upstream signal carries no text and is immaterial to the
flushed segments). -/
def finish_stream (buffer : List Char) : List Char × Option (List Char) :=
  if !(strip buffer).isEmpty then ([], (flush_buffer buffer).2)
  else ([], none)

/-- Feed a list of fragments one at a time through append_text, collecting
the flushed segments in order. -/
def run_fragments (threshold : ℕ) : List Char → List (List Char) → List Char × List (List Char)
  | b, [] => (b, [])
  | b, f :: fs =>
    ((run_fragments threshold (append_text threshold b f).1 fs).1,
      (match (append_text threshold b f).2 with
        | some seg => [seg]
        | none => []) ++ (run_fragments threshold (append_text threshold b f).1 fs).2)

/-- The 43 fragments of the spec scenario: the numbers 1 to 15, each
followed by a comma fragment and a space fragment except the last. -/
def c7_fragments : List (List Char) :=
  [['1'], [','], [' '], ['2'], [','], [' '], ['3'], [','], [' '],
   ['4'], [','], [' '], ['5'], [','], [' '], ['6'], [','], [' '],
   ['7'], [','], [' '], ['8'], [','], [' '], ['9'], [','], [' '],
   ['1','0'], [','], [' '], ['1','1'], [','], [' '], ['1','2'], [','], [' '],
   ['1','3'], [','], [' '], ['1','4'], [','], [' '], ['1','5']]

/-- Segments flushed when the spec scenario is streamed with threshold 50
and then finished. -/
def c7_segments : List (List Char) :=
  (run_fragments 50 [] c7_fragments).2 ++
    (match (finish_stream (run_fragments 50 [] c7_fragments).1).2 with
      | some seg => [seg]
      | none => [])

/-- True when the list ends with a space not preceded by another space. -/
def ends_with_exactly_one_space (l : List Char) : Bool :=
  match l.reverse with
  | [] => false
  | c :: rest => c == ' ' && !(rest.headD 'x' == ' ')

/-- Counterexample buffer for claim C3: 49 letters followed by a newline;
length 50 meets the threshold, no earlier rule applies, the buffer ends
in whitespace, yet the code does not flush because it tests for the space
character only. -/
def c3_buf : List Char := List.replicate 49 'a' ++ ['\n']

/-- Witness buffer for the amended claim C3: 49 letters and a comma. -/
def c3_wbuf : List Char := List.replicate 49 'a' ++ [',']

/-! ## Receive loop of tts_streamer.py -/

/-- Alignment object of a provider message, with both naming conventions
the code accepts (tts_streamer.py lines 350-352).  A field is none when
the key is absent or null. -/
structure AlignmentData where
  charStartTimesMs : Option (List ℤ)
  char_start_times_ms : Option (List ℤ)
  charDurationsMs : Option (List ℤ)
  char_durations_ms : Option (List ℤ)
  chars : Option (List String)
deriving DecidableEq

/-- Python expression a or b or [] on two optional lists: the first
truthy (present and non-empty) operand, else the empty list. -/
def pickList (a b : Option (List α)) : List α :=
  match a with
  | some (x :: xs) => x :: xs
  | _ =>
    match b with
    | some (y :: ys) => y :: ys
    | _ => []

/-- Python expression a or [] on one optional list. -/
def orEmpty (a : Option (List α)) : List α :=
  match a with
  | some l => l
  | none => []

/-- Decoded JSON payload of a provider text frame.  The audio field holds
the decoded bytes (none when the key is absent or null; the empty list
when the base64 string is empty); error records presence of the error
key. -/
structure ProviderData where
  error : Option String
  audio : Option (List ℕ)
  isFinal : Bool
  normalizedAlignment : Option AlignmentData
  alignment : Option AlignmentData
deriving DecidableEq

/-- Python expression data.get(normalizedAlignment) or data.get(alignment)
or the empty dict, where none stands for an absent, null or empty dict. -/
def eff_alignment (d : ProviderData) : AlignmentData :=
  match d.normalizedAlignment with
  | some a => a
  | none =>
    match d.alignment with
    | some a => a
    | none => AlignmentData.mk none none none none none

/-- Normalized char start times of an alignment object. -/
def chunk_times (a : AlignmentData) : List ℤ :=
  pickList a.charStartTimesMs a.char_start_times_ms

/-- Normalized char durations of an alignment object. -/
def chunk_durations (a : AlignmentData) : List ℤ :=
  pickList a.charDurationsMs a.char_durations_ms

/-- Normalized chars of an alignment object. -/
def chunk_chars (a : AlignmentData) : List String :=
  orEmpty a.chars

/-- Embedding of the AudioChunk dataclass (tts_streamer.py lines 24-32). -/
structure AudioChunk where
  audio_bytes : List ℕ
  char_start_times_ms : List ℤ
  char_durations_ms : List ℤ
  chars : List String
  chunk_index : ℕ
  is_final : Bool
deriving DecidableEq

/-- The synthetic final marker yielded after the loop ends
(tts_streamer.py lines 382-389). -/
def final_chunk (idx : ℕ) : AudioChunk := AudioChunk.mk [] [] [] [] idx true

/-- An inbound WebSocket message: a decodable text frame, a text frame
whose JSON decoding fails, a transport error frame, or a close frame. -/
inductive InMsg where
  | text (d : ProviderData)
  | badJson
  | wsError
  | wsClosed
deriving DecidableEq

/-- Embedding of the receive loop shared verbatim by
ElevenLabsStreamingSession.receive_audio (tts_streamer.py lines 314-389)
and ElevenLabsStreamer.stream_text (lines 121-196): skip undecodable
frames, raise on an error payload (second component holds the raised
message; no final marker is yielded then), stop on isFinal or transport
error or close, skip frames without audio, and otherwise yield a chunk
whose start times are shifted by the running offset, which then grows by
the computed chunk duration.  Arguments are the session offset and chunk
index followed by the inbound messages. -/
def receive_audio : ℤ → ℕ → List InMsg → List AudioChunk × Option String
  | _, idx, [] => ([final_chunk idx], none)
  | off, idx, InMsg.badJson :: rest => receive_audio off idx rest
  | _, idx, InMsg.wsError :: _ => ([final_chunk idx], none)
  | _, idx, InMsg.wsClosed :: _ => ([final_chunk idx], none)
  | off, idx, InMsg.text d :: rest =>
    match d.error with
    | some e => ([], some ("ElevenLabs API error: " ++ e))
    | none =>
      if d.isFinal then ([final_chunk idx], none)
      else
        match d.audio with
        | none => receive_audio off idx rest
        | some [] => receive_audio off idx rest
        | some (b :: bs) =>
          (AudioChunk.mk (b :: bs)
              ((chunk_times (eff_alignment d)).map (fun t => t + off))
              (chunk_durations (eff_alignment d))
              (chunk_chars (eff_alignment d)) idx false
            :: (receive_audio (off + audio_duration_ms (b :: bs).length) (idx + 1) rest).1,
           (receive_audio (off + audio_duration_ms (b :: bs).length) (idx + 1) rest).2)

/-- Receive loop of one fresh session: offset 0, chunk index 0. -/
def receive_audio_session (msgs : List InMsg) : List AudioChunk × Option String :=
  receive_audio 0 0 msgs

/-- The audio-bearing messages the loop processes, in order, with their
effective alignment: the frames that yield a chunk. -/
def eff_audio_list : List InMsg → List (List ℕ × AlignmentData)
  | [] => []
  | InMsg.badJson :: rest => eff_audio_list rest
  | InMsg.wsError :: _ => []
  | InMsg.wsClosed :: _ => []
  | InMsg.text d :: rest =>
    match d.error with
    | some _ => []
    | none =>
      if d.isFinal then []
      else
        match d.audio with
        | none => eff_audio_list rest
        | some [] => eff_audio_list rest
        | some (b :: bs) => ((b :: bs), eff_alignment d) :: eff_audio_list rest

/-- Reference construction of the exposed non-final chunks from the
audio-bearing messages: each chunk shifts its local times by the running
offset, which accumulates the computed durations. -/
def expose_from : ℤ → ℕ → List (List ℕ × AlignmentData) → List AudioChunk
  | _, _, [] => []
  | off, idx, (bs, a) :: rest =>
    AudioChunk.mk bs ((chunk_times a).map (fun t => t + off)) (chunk_durations a)
        (chunk_chars a) idx false
      :: expose_from (off + audio_duration_ms bs.length) (idx + 1) rest

/-- The non-final chunks of a chunk list, in order. -/
def non_final_chunks (cs : List AudioChunk) : List AudioChunk :=
  cs.filter (fun c => !c.is_final)

/-- Sum of the computed durations of the first i audio-bearing messages. -/
def prior_duration_sum (l : List (List ℕ × AlignmentData)) (i : ℕ) : ℤ :=
  ((l.take i).map (fun p => audio_duration_ms p.1.length)).sum

/-- Concatenation of the exposed start times across the non-final chunks,
in chunk order. -/
def concat_times (cs : List AudioChunk) : List ℤ :=
  ((non_final_chunks cs).map (fun c => c.char_start_times_ms)).flatten

/-- A provider frame carrying audio bytes and camelCase start times. -/
def mk_audio_msg (bs : List ℕ) (times : List ℤ) : InMsg :=
  InMsg.text (ProviderData.mk none (some bs) false
    (some (AlignmentData.mk (some times) none none none none)) none)

/-- Witness messages for the amended claim C5: two one-byte chunks whose
local times respect the duration bound. -/
def c5_wmsgs : List InMsg := [mk_audio_msg [0] [0, 0], mk_audio_msg [0] [0]]

/-- Counterexample messages for claim C5 as stated: the provider sends a
one-byte chunk (computed duration 0 ms) with local time 100, then a
second chunk with local time 0. -/
def c5_msgs : List InMsg := [mk_audio_msg [0] [100], mk_audio_msg [0] [0]]

/-- An inbound message whose three normalized alignment sequences have
equal length (trivially true for non-chunk frames). -/
def aligned_msg : InMsg → Bool
  | InMsg.text d =>
    ((chunk_chars (eff_alignment d)).length == (chunk_times (eff_alignment d)).length) &&
      ((chunk_durations (eff_alignment d)).length == (chunk_chars (eff_alignment d)).length)
  | _ => true

/-- Witness messages for the amended claim C1: one frame with audio and
equal-length alignment arrays. -/
def c1_wmsgs : List InMsg :=
  [InMsg.text (ProviderData.mk none (some [0]) false
    (some (AlignmentData.mk (some [0]) none (some [7]) none (some ["a"]))) none)]

/-- Counterexample messages for claim C1 as stated: the provider sends a
frame whose alignment carries one char but no start times and no
durations; the three lists are read independently with separate empty
fallbacks. -/
def c1_msgs : List InMsg :=
  [InMsg.text (ProviderData.mk none (some [0]) false
    (some (AlignmentData.mk none none none none (some ["a"]))) none)]

/-! ## TTSBroadcaster coordinator of ws_server.py -/

/-- Consumer connection handle (the Python WebSocket object). -/
abbrev Client := ℕ

/-- Outbound event payloads of ws_server.py (audio carried as decoded
bytes; the base64 encoding of the transport is elided). -/
inductive Event where
  | chunk (audio : List ℕ) (char_times : List ℤ) (char_durations : List ℤ)
      (chars : List String) (chunk_index : ℕ)
  | complete (text : String) (total_chars : ℕ) (total_duration_ms : ℤ)
  | error (message : String)
  | pong
deriving DecidableEq

/-- Record of one broadcast_to_clients call: the event, the consumers a
send was attempted to, and the consumers whose send succeeded. -/
structure BroadcastRec where
  event : Event
  attempted : List Client
  delivered : List Client
deriving DecidableEq

/-- Instance fields of ElevenLabsStreamingSession that the coordinator
observes (tts_streamer.py lines 237-241). -/
structure SessionState where
  started : Bool
  finished : Bool
  offset_ms : ℤ
  chunk_index : ℕ
  first_text_sent : Bool
deriving DecidableEq

/-- Instance fields of TTSBroadcaster (ws_server.py lines 68-88).  The
Python set of Flutter clients is a list of distinct handles; the
alignment logger is represented by the flag saying whether one is
configured. -/
structure BroadcasterState where
  flutter_clients : List Client
  agent_connected : Bool
  el_session : Option SessionState
  audio_task : Bool
  is_streaming : Bool
  log_alignment : Bool
  full_text : String
  all_chars : List String
  all_times : List ℤ
  all_durations : List ℤ
  total_audio_ms : ℤ
  chunk_count : ℕ
deriving DecidableEq

/-- Embedding of TTSBroadcaster.broadcast_to_clients (ws_server.py lines
112-127): when no client is registered nothing happens; otherwise every
current client is attempted, the failing ones are collected and removed
from the set afterwards.  The argument fails says which client handles
raise on send.  Returns the new client set and the call record. -/
def broadcast_to_clients (clients : List Client) (fails : Client → Bool) (ev : Event) :
    List Client × BroadcastRec :=
  if clients.isEmpty then (clients, BroadcastRec.mk ev clients clients)
  else (clients.filter (fun c => !fails c),
    BroadcastRec.mk ev clients (clients.filter (fun c => !fails c)))

/-- One broadcast call performed on the coordinator state. -/
def broadcast_step (s : BroadcasterState) (fails : Client → Bool) (ev : Event) :
    BroadcasterState × BroadcastRec :=
  ({ s with flutter_clients := (broadcast_to_clients s.flutter_clients fails ev).1 },
    (broadcast_to_clients s.flutter_clients fails ev).2)

/-- Body of the chunk loop of _receive_and_broadcast_audio (ws_server.py
lines 214-245): extend the three accumulator lists, add the computed
duration to the total, broadcast a chunk event carrying the
pre-increment chunk counter, then increment the counter. -/
def forward_chunk (fails : Client → Bool) (acc : BroadcasterState × List BroadcastRec)
    (c : AudioChunk) : BroadcasterState × List BroadcastRec :=
  let s1 := { acc.1 with
    all_chars := acc.1.all_chars ++ c.chars,
    all_times := acc.1.all_times ++ c.char_start_times_ms,
    all_durations := acc.1.all_durations ++ c.char_durations_ms,
    total_audio_ms := acc.1.total_audio_ms + audio_duration_ms c.audio_bytes.length }
  ({ (broadcast_step s1 fails (Event.chunk c.audio_bytes c.char_start_times_ms
        c.char_durations_ms c.chars s1.chunk_count)).1 with
      chunk_count := s1.chunk_count + 1 },
    acc.2 ++ [(broadcast_step s1 fails (Event.chunk c.audio_bytes c.char_start_times_ms
        c.char_durations_ms c.chars s1.chunk_count)).2])

/-- Embedding of TTSBroadcaster._receive_and_broadcast_audio (ws_server.py
lines 209-251): drive the session receive loop, process the non-final
chunks in order, and when the receive loop raises, catch the exception
and broadcast an error event - without resetting any other coordinator
field.  When the session is absent the attribute access itself raises and
the same except branch broadcasts the error. -/
def receive_and_broadcast_audio (s : BroadcasterState) (fails : Client → Bool)
    (msgs : List InMsg) : BroadcasterState × List BroadcastRec :=
  match s.el_session with
  | none =>
    let br := broadcast_step s fails (Event.error "NoneType has no attribute receive_audio")
    (br.1, [br.2])
  | some ses =>
    let rec0 := receive_audio ses.offset_ms ses.chunk_index msgs
    let folded := (rec0.1.takeWhile (fun c => !c.is_final)).foldl (forward_chunk fails) (s, [])
    match rec0.2 with
    | none => folded
    | some e =>
      let br := broadcast_step folded.1 fails (Event.error e)
      (br.1, folded.2 ++ [br.2])

/-- Local accumulators of handle_single_shot (ws_server.py lines
281-286) together with the events sent to the requesting consumer. -/
structure SingleShotAcc where
  chars : List String
  times : List ℤ
  durations : List ℤ
  total_ms : ℤ
  chunk_count : ℕ
  events : List (Client × Event)
deriving DecidableEq

/-- Body of the chunk loop of handle_single_shot (ws_server.py lines
289-312): extend the local accumulators and send a chunk event carrying
the pre-increment local counter to the requesting consumer only. -/
def single_shot_step (ws : Client) (acc : SingleShotAcc) (c : AudioChunk) : SingleShotAcc :=
  SingleShotAcc.mk (acc.chars ++ c.chars) (acc.times ++ c.char_start_times_ms)
    (acc.durations ++ c.char_durations_ms)
    (acc.total_ms + audio_duration_ms c.audio_bytes.length)
    (acc.chunk_count + 1)
    (acc.events ++ [(ws, Event.chunk c.audio_bytes c.char_start_times_ms
      c.char_durations_ms c.chars acc.chunk_count)])

/-- Embedding of TTSBroadcaster.handle_single_shot (ws_server.py lines
270-333): an ephemeral streamer is driven with fresh offsets, every chunk
event goes to the requesting consumer, on success a complete event is
sent to it (after persisting the local alignment record to the external
sink), on an exception an error event is sent to it; no broadcaster field
is assigned.  Returns the coordinator state and the sent events, each
tagged with its recipient. -/
def handle_single_shot (s : BroadcasterState) (ws : Client) (text : String)
    (msgs : List InMsg) : BroadcasterState × List (Client × Event) :=
  let rec0 := receive_audio 0 0 msgs
  let acc := (rec0.1.takeWhile (fun c => !c.is_final)).foldl (single_shot_step ws)
    (SingleShotAcc.mk [] [] [] 0 0 [])
  match rec0.2 with
  | none => (s, acc.events ++ [(ws, Event.complete text acc.chars.length acc.total_ms)])
  | some e => (s, acc.events ++ [(ws, Event.error e)])

/-- Messages sent to the upstream provider. -/
inductive UpstreamMsg where
  | textMsg (text : String) (try_trigger_generation : Bool) (with_settings : Bool)
  | eos
deriving DecidableEq

/-- Externally observable side effects of the coordinator handlers. -/
inductive Effect where
  | sessionOpened
  | taskStarted
  | upstreamSend (m : UpstreamMsg)
  | upstreamClosed
  | alignmentSaved (text : String) (chars : List String) (times : List ℤ)
      (durations : List ℤ)
  | broadcasted (r : BroadcastRec)
  | pongSent
deriving DecidableEq

/-- A session right after ElevenLabsStreamingSession.start(). -/
def fresh_session : SessionState := SessionState.mk true false 0 0 false

/-- Embedding of TTSBroadcaster._cleanup (ws_server.py lines 253-268):
cancel the task, close an open session, clear both and the streaming
flag. -/
def cleanup (s : BroadcasterState) : BroadcasterState × List Effect :=
  ({ s with audio_task := false, el_session := none, is_streaming := false },
    if s.el_session.isSome then [Effect.upstreamClosed] else [])

/-- Embedding of TTSBroadcaster._start_session (ws_server.py lines
180-207): clean up a session still marked streaming, reset every
per-utterance field, open a fresh session and start the forwarding
task. -/
def start_session (s : BroadcasterState) : BroadcasterState × List Effect :=
  ({ (if s.is_streaming then (cleanup s).1 else s) with
      full_text := "", all_chars := [], all_times := [], all_durations := [],
      total_audio_ms := 0, chunk_count := 0,
      el_session := some fresh_session, audio_task := true, is_streaming := true },
    (if s.is_streaming then (cleanup s).2 else []) ++
      [Effect.sessionOpened, Effect.taskStarted])

/-- Embedding of ElevenLabsStreamingSession.send_text (tts_streamer.py
lines 269-300): none models the RuntimeError on an unstarted or finished
session; the first call triggers generation and carries the one-time
settings payload. -/
def send_text (ses : SessionState) (t : String) : Option (SessionState × UpstreamMsg) :=
  if !ses.started then none
  else if ses.finished then none
  else some ({ ses with first_text_sent := true },
    UpstreamMsg.textMsg t (!ses.first_text_sent) (!ses.first_text_sent))

/-- Embedding of ElevenLabsStreamingSession.finish (tts_streamer.py lines
302-312): send the empty-text end-of-input sentinel once. -/
def session_finish (ses : SessionState) : SessionState × List UpstreamMsg :=
  if !ses.started then (ses, [])
  else if ses.finished then (ses, [])
  else ({ ses with finished := true }, [UpstreamMsg.eos])

/-- Embedding of TTSBroadcaster.handle_append_text (ws_server.py lines
129-138): when not streaming, start a session first; then send the text
upstream and append it to the running full text.  The none branches model
exceptions propagating out of send_text, which are unreachable from the
modelled entry points. -/
def handle_append_text (s : BroadcasterState) (t : String) : BroadcasterState × List Effect :=
  let p := if !s.is_streaming then start_session s else (s, [])
  match p.1.el_session with
  | none => p
  | some ses =>
    match send_text ses t with
    | none => p
    | some q =>
      ({ p.1 with el_session := some q.1, full_text := p.1.full_text ++ t },
        p.2 ++ [Effect.upstreamSend q.2])

/-- Embedding of TTSBroadcaster.handle_finish (ws_server.py lines
140-178): a no-op warning when not streaming or without a session;
otherwise send the end-of-input sentinel, await the forwarding task -
linearized here as running it on the remaining inbound messages - then
persist the alignment record when a sink is configured and text was
accumulated, broadcast the completion event and clean up. -/
def handle_finish (s : BroadcasterState) (fails : Client → Bool) (taskMsgs : List InMsg) :
    BroadcasterState × List Effect :=
  match s.el_session with
  | none => (s, [])
  | some ses =>
    if !s.is_streaming then (s, [])
    else
      let fin := session_finish ses
      let task := receive_and_broadcast_audio { s with el_session := some fin.1 } fails taskMsgs
      let s2 := task.1
      let saveEffs := if s2.log_alignment = true ∧ s2.full_text ≠ "" then
          [Effect.alignmentSaved s2.full_text s2.all_chars s2.all_times s2.all_durations]
        else []
      let br := broadcast_step s2 fails
        (Event.complete s2.full_text s2.all_chars.length s2.total_audio_ms)
      let cl := cleanup br.1
      (cl.1,
        (fin.2.map Effect.upstreamSend) ++ (task.2.map Effect.broadcasted) ++ saveEffs ++
          [Effect.broadcasted br.2] ++ cl.2)

/-- Inbound producer-channel actions of the agent endpoint (ws_server.py
lines 387-399). -/
inductive AgentMsg where
  | append_tts (text : String)
  | finish_tts
  | ping
  | unknown
deriving DecidableEq

/-- Embedding of one message dispatch of agent_endpoint (ws_server.py
lines 387-399): append_tts forwards to handle_append_text only when the
text is non-empty (Python truthiness), finish_tts forwards to
handle_finish, ping answers pong, anything else is ignored. -/
def agent_step (s : BroadcasterState) (fails : Client → Bool) (taskMsgs : List InMsg)
    (m : AgentMsg) : BroadcasterState × List Effect :=
  match m with
  | AgentMsg.append_tts t => if t = "" then (s, []) else handle_append_text s t
  | AgentMsg.finish_tts => handle_finish s fails taskMsgs
  | AgentMsg.ping => (s, [Effect.pongSent])
  | AgentMsg.unknown => (s, [])

/-- Session and coordinator state for the C2 scenario: streaming is in
progress with one consumer attached. -/
def c2_ses : SessionState := SessionState.mk true false 0 0 true

/-- Streaming coordinator state for the C2 scenario. -/
def c2_state : BroadcasterState :=
  BroadcasterState.mk [1] true (some c2_ses) true true false "hi" [] [] [] 0 0

/-- Provider message stream delivering an error payload. -/
def c2_msgs : List InMsg := [InMsg.text (ProviderData.mk (some "boom") none false none none)]

/-- Idle coordinator state for the C10 witness. -/
def c10_state : BroadcasterState :=
  BroadcasterState.mk [] true none false false false "" [] [] [] 0 0

/-! ## Theorems -/

theorem roundHalfEven_nonneg (sn sd : ℤ) (h1 : 0 ≤ sn) (h2 : 0 ≤ sd) :
    0 ≤ roundHalfEven sn sd := by
  unfold roundHalfEven
  have hq : 0 ≤ sn.ediv sd := Int.ediv_nonneg h1 h2
  dsimp only
  split
  · exact hq
  · split
    · omega
    · split
      · exact hq
      · omega

theorem fl_num_nonneg (f : Frac) : 0 ≤ (fl f).num := by
  unfold fl flPos
  split
  · exact le_refl 0
  · rename_i h
    push_neg at h
    dsimp only
    have h2 : (0:ℤ) ≤ 2 ^ (flExp f.num f.den - 52).toNat := pow_nonneg (by norm_num) _
    have h3 : (0:ℤ) ≤ 2 ^ (52 - flExp f.num f.den).toNat := pow_nonneg (by norm_num) _
    split
    · exact mul_nonneg (roundHalfEven_nonneg _ _ h.1.le (mul_nonneg h.2.le h2)) h2
    · exact roundHalfEven_nonneg _ _ (mul_nonneg h.1.le h3) h.2.le

theorem fl_den_pos (f : Frac) : 0 < (fl f).den := by
  unfold fl flPos
  split
  · exact one_pos
  · dsimp only
    split
    · exact one_pos
    · positivity

/-- The duration added to the running offset is never negative. -/
theorem audio_duration_ms_nonneg (n : ℕ) : 0 ≤ audio_duration_ms n := by
  unfold audio_duration_ms pyInt
  exact Int.tdiv_nonneg (fl_num_nonneg _) (fl_den_pos _).le

/-- Claim C7: with threshold 50, streaming the 43 fragments of the
1-to-15 scenario one at a time and finishing produces strictly fewer
flushed segments than input fragments, and every flushed segment ends
with exactly one trailing space. -/
theorem claim_C7_buffering_scenario :
    c7_segments.length < c7_fragments.length ∧
      c7_segments.all ends_with_exactly_one_space = true := by
  constructor
  · decide
  · decide

/-- Claim C3 as stated is false: the buffer c3_buf has length at least
the threshold 50, the hard cap and the sentence-terminal rule do not
apply, its tail window holds no comma and it ends in whitespace (a
newline), so the claim requires a flush; _should_flush_buffer returns
false because it checks endswith(' '), not general whitespace. -/
theorem claim_C3_counterexample :
    should_flush_buffer 50 c3_buf = false ∧
      50 ≤ c3_buf.length ∧ c3_buf.length < 50 * 2 ∧
      ends_sentence_terminal c3_buf = false ∧
      py_whitespace.contains (c3_buf.getLastD 'x') = true ∧
      (tail_window c3_buf).contains ',' = false ∧
      (tail_window c3_buf).contains '،' = false := by
  refine ⟨by decide, by decide, by decide, by decide, by decide, by decide, by decide⟩

/-- Claim C3 amended: for a pending buffer at or above the threshold for
which neither the hard cap nor the sentence-terminal rule applies, append
flushes exactly when the last min(20, length) characters contain a Latin
or Arabic comma, or the pending text ends in the space character
(U+0020) - not arbitrary whitespace. -/
theorem claim_C3_tail_window_rule (threshold : ℕ) (buffer : List Char)
    (h1 : threshold ≤ buffer.length)
    (h2 : buffer.length < threshold * 2)
    (h3 : ¬ (10 ≤ buffer.length ∧ ends_sentence_terminal buffer = true)) :
    should_flush_buffer threshold buffer = true ↔
      ((tail_window buffer).contains ',' = true ∨
        (tail_window buffer).contains '،' = true ∨
        buffer.getLast? = some ' ') := by
  have hne : buffer.isEmpty = false := by
    cases buffer with
    | nil => simp at h1; omega
    | cons a l => rfl
  unfold should_flush_buffer
  rw [hne]
  simp only [Bool.false_eq_true, if_false]
  rw [if_neg (by omega)]
  have h10 : ((10 ≤ buffer.length : Bool) && ends_sentence_terminal buffer) = false := by
    by_cases hel : ends_sentence_terminal buffer = true
    · have hnl : ¬ (10 ≤ buffer.length) := fun hle => h3 ⟨hle, hel⟩
      simp [hel, hnl]
    · have hef : ends_sentence_terminal buffer = false := by
        revert hel
        cases ends_sentence_terminal buffer <;> simp
      simp [hef]
  rw [h10]
  simp only [Bool.false_eq_true, if_false]
  have hth : (threshold ≤ buffer.length : Bool) = true := by simpa using h1
  rw [hth]
  simp only [Bool.true_and]
  by_cases hc : ((tail_window buffer).contains ',' || (tail_window buffer).contains '،' ||
      buffer.getLast? == some ' ') = true
  · rw [if_pos hc]
    simp only [Bool.or_eq_true, beq_iff_eq] at hc
    refine iff_of_true rfl ?_
    tauto
  · rw [if_neg hc]
    simp only [Bool.or_eq_true, beq_iff_eq] at hc
    refine iff_of_false (by simp) ?_
    intro h
    exact hc (by tauto)

/-- Witness for the amended claim C3 at the concrete buffer c3_wbuf with
threshold 50. -/
theorem claim_C3_tail_window_rule_witness :
    (50 ≤ c3_wbuf.length ∧ c3_wbuf.length < 50 * 2 ∧
      ¬ (10 ≤ c3_wbuf.length ∧ ends_sentence_terminal c3_wbuf = true)) ∧
      (should_flush_buffer 50 c3_wbuf = true ↔
        ((tail_window c3_wbuf).contains ',' = true ∨
          (tail_window c3_wbuf).contains '،' = true ∨
          c3_wbuf.getLast? = some ' ')) :=
  ⟨⟨by decide, by decide, by decide⟩,
    claim_C3_tail_window_rule 50 c3_wbuf (by decide) (by decide) (by decide)⟩

theorem receive_audio_non_final (msgs : List InMsg) : ∀ (off : ℤ) (idx : ℕ),
    non_final_chunks (receive_audio off idx msgs).1 = expose_from off idx (eff_audio_list msgs) := by
  induction msgs with
  | nil =>
    intro off idx
    simp [receive_audio, eff_audio_list, non_final_chunks, final_chunk, expose_from]
  | cons m rest ih =>
    intro off idx
    cases m with
    | badJson => simpa [receive_audio, eff_audio_list] using ih off idx
    | wsError =>
      simp [receive_audio, eff_audio_list, non_final_chunks, final_chunk, expose_from]
    | wsClosed =>
      simp [receive_audio, eff_audio_list, non_final_chunks, final_chunk, expose_from]
    | text d =>
      cases herr : d.error with
      | some e =>
        simp [receive_audio, eff_audio_list, herr, non_final_chunks, expose_from]
      | none =>
        cases hf : d.isFinal with
        | true =>
          simp [receive_audio, eff_audio_list, herr, hf, non_final_chunks, final_chunk,
            expose_from]
        | false =>
          cases ha : d.audio with
          | none => simpa [receive_audio, eff_audio_list, herr, hf, ha] using ih off idx
          | some bs =>
            cases bs with
            | nil => simpa [receive_audio, eff_audio_list, herr, hf, ha] using ih off idx
            | cons b bs2 =>
              simp only [receive_audio, eff_audio_list, herr, hf, ha, non_final_chunks,
                expose_from, Bool.false_eq_true, if_false, List.filter_cons]
              simp only [Bool.not_false, if_true]
              exact congrArg _ (ih _ _)

theorem expose_from_times_get? (l : List (List ℕ × AlignmentData)) :
    ∀ (off : ℤ) (idx i : ℕ),
      ((expose_from off idx l).get? i).map (fun c => c.char_start_times_ms)
        = (l.get? i).map
            (fun p => (chunk_times p.2).map (fun t => t + (off + prior_duration_sum l i))) := by
  induction l with
  | nil => intro off idx i; cases i <;> simp [expose_from]
  | cons p rest ih =>
    intro off idx i
    cases p with
    | mk bs a =>
      cases i with
      | zero => simp [expose_from, prior_duration_sum]
      | succ j =>
        simp only [expose_from, List.get?_cons_succ]
        rw [ih]
        simp [prior_duration_sum, add_assoc]

/-- Claim C4: for every session, the exposed start times of the i-th
non-final chunk are the local times of the i-th audio-bearing message
shifted by the sum of the computed durations of all prior audio-bearing
messages; and on the spec example (chunk byte counts 22050 and 13230,
that is 500 ms and 300 ms, local times [0, 100] and [0, 50]) the exposed
times are [0, 100] and [500, 550]. -/
theorem claim_C4_offset_shift :
    (∀ (msgs : List InMsg) (i : ℕ),
      ((non_final_chunks (receive_audio_session msgs).1).get? i).map
          (fun c => c.char_start_times_ms)
        = ((eff_audio_list msgs).get? i).map
            (fun p => (chunk_times p.2).map
              (fun t => t + prior_duration_sum (eff_audio_list msgs) i))) ∧
    (∀ (b1 b2 : List ℕ), b1.length = 22050 → b2.length = 13230 →
      (non_final_chunks (receive_audio_session
          [mk_audio_msg b1 [0, 100], mk_audio_msg b2 [0, 50]]).1).map
          (fun c => c.char_start_times_ms)
        = [[0, 100], [500, 550]]) := by
  constructor
  · intro msgs i
    unfold receive_audio_session
    rw [receive_audio_non_final, expose_from_times_get?]
    simp [zero_add]
  · intro b1 b2 h1 h2
    cases b1 with
    | nil => simp at h1
    | cons x xs =>
      cases b2 with
      | nil => simp at h2
      | cons y ys =>
        have hd1 : audio_duration_ms (x :: xs).length = 500 := by rw [h1]; decide
        have hd2 : audio_duration_ms (y :: ys).length = 300 := by rw [h2]; decide
        unfold receive_audio_session
        rw [receive_audio_non_final]
        simp only [mk_audio_msg, eff_audio_list]
        simp only [expose_from, hd1, hd2, eff_alignment, chunk_times, pickList,
          List.map_cons, List.map_nil]
        norm_num

/-- Witness for claim C4: the spec example instantiated with byte lists
of the stated lengths. -/
theorem claim_C4_offset_shift_witness :
    (non_final_chunks (receive_audio_session
        [mk_audio_msg (List.replicate 22050 0) [0, 100],
         mk_audio_msg (List.replicate 13230 0) [0, 50]]).1).map
        (fun c => c.char_start_times_ms)
      = [[0, 100], [500, 550]] :=
  claim_C4_offset_shift.2 (List.replicate 22050 0) (List.replicate 13230 0)
    (List.length_replicate 22050 0) (List.length_replicate 13230 0)

theorem expose_from_sorted (l : List (List ℕ × AlignmentData)) : ∀ (off : ℤ) (idx : ℕ),
    (∀ p ∈ l, List.Sorted (· ≤ ·) (chunk_times p.2) ∧
      ∀ t ∈ chunk_times p.2, 0 ≤ t ∧ t ≤ audio_duration_ms p.1.length) →
    List.Sorted (· ≤ ·) (((expose_from off idx l).map (fun c => c.char_start_times_ms)).flatten) ∧
      ∀ t ∈ ((expose_from off idx l).map (fun c => c.char_start_times_ms)).flatten, off ≤ t := by
  induction l with
  | nil =>
    intro off idx h
    simp [expose_from, List.Sorted]
  | cons p rest ih =>
    intro off idx h
    obtain ⟨hsort, hbound⟩ := h p (List.mem_cons_self p rest)
    have hrest := fun q hq => h q (List.mem_cons_of_mem p hq)
    obtain ⟨ihs, ihb⟩ := ih (off + audio_duration_ms p.1.length) (idx + 1) hrest
    cases p with
    | mk bs a =>
      simp only at hsort hbound ihs ihb
      simp only [expose_from, List.map_cons, List.flatten_cons]
      constructor
      · rw [List.Sorted, List.pairwise_append]
        refine ⟨?_, ihs, ?_⟩
        · exact List.Pairwise.map _ (fun x y hxy => by omega) hsort
        · intro x hx y hy
          obtain ⟨t, ht, rfl⟩ := List.mem_map.1 hx
          have h1 := (hbound t ht).2
          have h2 := ihb y hy
          omega
      · intro t ht
        rcases List.mem_append.1 ht with hx | hx
        · obtain ⟨u, hu, rfl⟩ := List.mem_map.1 hx
          have := (hbound u hu).1
          omega
        · have h2 := ihb t hx
          have h3 := audio_duration_ms_nonneg bs.length
          simp only at h3
          omega

/-- Claim C5 amended: the concatenation of the exposed start times across
the consecutive non-final chunks of a session is non-decreasing provided
the provider delivers, for each audio-bearing message, locally
non-decreasing and non-negative start times that do not exceed the
computed duration of that chunk.  Without this proviso the invariant
fails (see the counterexample). -/
theorem claim_C5_monotone_timeline (msgs : List InMsg)
    (h : ∀ p ∈ eff_audio_list msgs, List.Sorted (· ≤ ·) (chunk_times p.2) ∧
      ∀ t ∈ chunk_times p.2, 0 ≤ t ∧ t ≤ audio_duration_ms p.1.length) :
    List.Sorted (· ≤ ·) (concat_times (receive_audio_session msgs).1) := by
  unfold concat_times receive_audio_session
  rw [receive_audio_non_final]
  exact (expose_from_sorted _ 0 0 h).1

/-- Witness for the amended claim C5 at the concrete messages c5_wmsgs. -/
theorem claim_C5_monotone_timeline_witness :
    (∀ p ∈ eff_audio_list c5_wmsgs, List.Sorted (· ≤ ·) (chunk_times p.2) ∧
      ∀ t ∈ chunk_times p.2, 0 ≤ t ∧ t ≤ audio_duration_ms p.1.length) ∧
      List.Sorted (· ≤ ·) (concat_times (receive_audio_session c5_wmsgs).1) :=
  ⟨by decide, claim_C5_monotone_timeline c5_wmsgs (by decide)⟩

/-- Claim C5 as stated is false: nothing in the code prevents a provider
chunk whose local times exceed its audio duration, and then the
concatenated exposed times decrease. -/
theorem claim_C5_counterexample :
    concat_times (receive_audio_session c5_msgs).1 = [100, 0] ∧
      ¬ List.Sorted (· ≤ ·) (concat_times (receive_audio_session c5_msgs).1) := by
  constructor
  · decide
  · decide

/-- Claim C1 amended: every chunk exposed by the receive loop (shared by
the session receive and the single-shot stream) has chars, start times
and durations of equal length, provided each inbound provider frame
carries alignment sequences of equal length after normalization; the
synthetic final chunk always has all three empty.  Without the proviso
the invariant fails (see the counterexample). -/
theorem claim_C1_equal_length :
    ∀ (msgs : List InMsg) (off : ℤ) (idx : ℕ),
      (∀ m ∈ msgs, aligned_msg m = true) →
      ∀ c ∈ (receive_audio off idx msgs).1,
        c.chars.length = c.char_start_times_ms.length ∧
          c.char_durations_ms.length = c.chars.length := by
  intro msgs
  induction msgs with
  | nil =>
    intro off idx h c hc
    simp only [receive_audio, List.mem_singleton] at hc
    subst hc
    simp [final_chunk]
  | cons m rest ih =>
    intro off idx h c hc
    have hrest : ∀ m2 ∈ rest, aligned_msg m2 = true :=
      fun m2 hm2 => h m2 (List.mem_cons_of_mem m hm2)
    cases m with
    | badJson =>
      simp only [receive_audio] at hc
      exact ih off idx hrest c hc
    | wsError =>
      simp only [receive_audio, List.mem_singleton] at hc
      subst hc
      simp [final_chunk]
    | wsClosed =>
      simp only [receive_audio, List.mem_singleton] at hc
      subst hc
      simp [final_chunk]
    | text d =>
      have hm := h (InMsg.text d) (List.mem_cons_self _ _)
      simp only [aligned_msg, Bool.and_eq_true, beq_iff_eq] at hm
      cases herr : d.error with
      | some e =>
        simp only [receive_audio, herr] at hc
        simp at hc
      | none =>
        cases hf : d.isFinal with
        | true =>
          simp only [receive_audio, herr, hf, if_true, List.mem_singleton] at hc
          subst hc
          simp [final_chunk]
        | false =>
          cases ha : d.audio with
          | none =>
            simp only [receive_audio, herr, hf, ha, Bool.false_eq_true, if_false] at hc
            exact ih off idx hrest c hc
          | some bs =>
            cases bs with
            | nil =>
              simp only [receive_audio, herr, hf, ha, Bool.false_eq_true, if_false] at hc
              exact ih off idx hrest c hc
            | cons b bs2 =>
              simp only [receive_audio, herr, hf, ha, Bool.false_eq_true, if_false,
                List.mem_cons] at hc
              rcases hc with hc | hc
              · subst hc
                simp only [List.length_map]
                exact ⟨hm.1, hm.2⟩
              · exact ih _ _ hrest c hc

/-- Witness for the amended claim C1 at the concrete messages c1_wmsgs. -/
theorem claim_C1_equal_length_witness :
    (∀ m ∈ c1_wmsgs, aligned_msg m = true) ∧
      ∀ c ∈ (receive_audio 0 0 c1_wmsgs).1,
        c.chars.length = c.char_start_times_ms.length ∧
          c.char_durations_ms.length = c.chars.length :=
  ⟨by decide, claim_C1_equal_length c1_wmsgs 0 0 (by decide)⟩

/-- Claim C1 as stated is false: the first exposed chunk has one char but
zero start times and zero durations. -/
theorem claim_C1_counterexample :
    ((receive_audio_session c1_msgs).1.head?).map
        (fun c => (c.chars.length, c.char_start_times_ms.length, c.char_durations_ms.length))
      = some (1, 0, 0) := by decide

/-- Claim C8: the code is wrong on its own stated formula.  At a chunk of
88641 bytes (exactly 2.01 seconds of 16-bit mono PCM at 22050 Hz) the
double-precision evaluation int(88641 / (2 * 22050) * 1000) yields 2009,
while the exact floor the comment and the spec describe is 2010: the
accumulated offset silently loses a millisecond. -/
theorem claim_C8_duration_rounding_bug :
    audio_duration_ms 88641 = 2009 ∧ exact_duration_ms 88641 = 2010 := by
  constructor
  · decide
  · decide

theorem broadcast_to_clients_eq (clients : List Client) (fails : Client → Bool) (ev : Event) :
    broadcast_to_clients clients fails ev
      = (clients.filter (fun c => !fails c),
         BroadcastRec.mk ev clients (clients.filter (fun c => !fails c))) := by
  unfold broadcast_to_clients
  split
  · rename_i h
    have hnil : clients = [] := by simpa using h
    subst hnil
    rfl
  · rfl

/-- Claim C6: broadcast attempts delivery to every currently registered
consumer; a failing consumer is removed from the set and delivery to the
others is unaffected; concretely, with consumers 1, 2, 3 where the send
to 2 fails, the event is delivered to 1 and 3 and consumer 2 is absent
afterwards. -/
theorem claim_C6_fanout_isolation :
    (∀ (clients : List Client) (fails : Client → Bool) (ev : Event),
      (broadcast_to_clients clients fails ev).2.attempted = clients ∧
      (broadcast_to_clients clients fails ev).2.delivered
        = clients.filter (fun c => !fails c) ∧
      (broadcast_to_clients clients fails ev).1 = clients.filter (fun c => !fails c)) ∧
    ((broadcast_to_clients [1, 2, 3] (fun c => c == 2) (Event.error "x")).2.delivered
        = [1, 3] ∧
      (broadcast_to_clients [1, 2, 3] (fun c => c == 2) (Event.error "x")).1 = [1, 3]) := by
  constructor
  · intro clients fails ev
    rw [broadcast_to_clients_eq]
    exact ⟨rfl, rfl, rfl⟩
  · constructor
    · decide
    · decide

theorem broadcast_step_fields (s : BroadcasterState) (fails : Client → Bool) (ev : Event) :
    (broadcast_step s fails ev).1.is_streaming = s.is_streaming ∧
      (broadcast_step s fails ev).1.el_session = s.el_session ∧
      (broadcast_step s fails ev).2.event = ev := by
  unfold broadcast_step
  rw [broadcast_to_clients_eq]
  exact ⟨rfl, rfl, rfl⟩

theorem forward_chunk_fields (fails : Client → Bool)
    (acc : BroadcasterState × List BroadcastRec) (c : AudioChunk) :
    (forward_chunk fails acc c).1.is_streaming = acc.1.is_streaming ∧
      (forward_chunk fails acc c).1.el_session = acc.1.el_session := by
  unfold forward_chunk
  dsimp only
  constructor
  · rw [(broadcast_step_fields _ fails _).1]
  · rw [(broadcast_step_fields _ fails _).2.1]

theorem foldl_forward_fields (fails : Client → Bool) (cs : List AudioChunk) :
    ∀ acc : BroadcasterState × List BroadcastRec,
      (cs.foldl (forward_chunk fails) acc).1.is_streaming = acc.1.is_streaming ∧
        (cs.foldl (forward_chunk fails) acc).1.el_session = acc.1.el_session := by
  induction cs with
  | nil => intro acc; exact ⟨rfl, rfl⟩
  | cons c cs ih =>
    intro acc
    rw [List.foldl_cons]
    constructor
    · rw [(ih _).1, (forward_chunk_fields fails acc c).1]
    · rw [(ih _).2, (forward_chunk_fields fails acc c).2]

theorem getLast?_append_singleton (l : List α) (x : α) : (l ++ [x]).getLast? = some x :=
  List.getLast?_concat l

/-- Claim C2 amended: when the provider delivers an error payload, the
forwarding task stops and broadcasts an error event as its last
broadcast, but the coordinator is not reset to IDLE: the streaming flag
stays true and the session stays attached until a later finish or session
start. -/
theorem claim_C2_error_event_no_reset (s : BroadcasterState) (fails : Client → Bool)
    (msgs : List InMsg) (ses : SessionState) (chunks : List AudioChunk) (e : String)
    (h1 : s.el_session = some ses) (h2 : s.is_streaming = true)
    (h3 : receive_audio ses.offset_ms ses.chunk_index msgs = (chunks, some e)) :
    (receive_and_broadcast_audio s fails msgs).1.is_streaming = true ∧
      (receive_and_broadcast_audio s fails msgs).1.el_session = some ses ∧
      ((receive_and_broadcast_audio s fails msgs).2.map (fun r => r.event)).getLast?
        = some (Event.error e) := by
  unfold receive_and_broadcast_audio
  rw [h1]
  dsimp only
  rw [h3]
  dsimp only
  have hf := foldl_forward_fields fails (chunks.takeWhile (fun c => !c.is_final)) (s, [])
  refine ⟨?_, ?_, ?_⟩
  · rw [(broadcast_step_fields _ fails _).1, hf.1]
    exact h2
  · rw [(broadcast_step_fields _ fails _).2.1, hf.2]
    exact h1
  · rw [List.map_append]
    simp only [List.map_cons, List.map_nil]
    rw [getLast?_append_singleton]
    rw [(broadcast_step_fields _ fails _).2.2]

/-- Claim C2 as stated is false: on an upstream error payload the task
broadcasts the error event, but the streaming flag remains true and the
session is not closed - the coordinator is not reset to IDLE. -/
theorem claim_C2_counterexample :
    (receive_and_broadcast_audio c2_state (fun _ => false) c2_msgs).1.is_streaming = true ∧
      (receive_and_broadcast_audio c2_state (fun _ => false) c2_msgs).1.el_session ≠ none ∧
      ((receive_and_broadcast_audio c2_state (fun _ => false) c2_msgs).2.map
          (fun r => r.event))
        = [Event.error "ElevenLabs API error: boom"] := by
  refine ⟨by decide, by decide, by decide⟩

/-- Witness for the amended claim C2 at the concrete streaming state
c2_state and the error-bearing provider stream c2_msgs. -/
theorem claim_C2_error_event_no_reset_witness :
    (c2_state.el_session = some c2_ses ∧ c2_state.is_streaming = true ∧
      receive_audio c2_ses.offset_ms c2_ses.chunk_index c2_msgs
        = ([], some "ElevenLabs API error: boom")) ∧
      ((receive_and_broadcast_audio c2_state (fun _ => false) c2_msgs).1.is_streaming = true ∧
        (receive_and_broadcast_audio c2_state (fun _ => false) c2_msgs).1.el_session
          = some c2_ses ∧
        ((receive_and_broadcast_audio c2_state (fun _ => false) c2_msgs).2.map
            (fun r => r.event)).getLast? = some (Event.error "ElevenLabs API error: boom")) :=
  ⟨⟨rfl, rfl, by decide⟩,
    claim_C2_error_event_no_reset c2_state (fun _ => false) c2_msgs c2_ses []
      "ElevenLabs API error: boom" rfl rfl (by decide)⟩

theorem single_shot_foldl_targets (ws : Client) (cs : List AudioChunk) :
    ∀ acc : SingleShotAcc,
      ((acc.events.map Prod.fst).all (fun c => c == ws)) = true →
      (((cs.foldl (single_shot_step ws) acc).events.map Prod.fst).all (fun c => c == ws))
        = true := by
  induction cs with
  | nil => intro acc h; exact h
  | cons c cs ih =>
    intro acc h
    rw [List.foldl_cons]
    apply ih
    simp only [single_shot_step, List.map_append, List.all_append, h, Bool.true_and,
      List.map_cons, List.map_nil]
    simp

/-- Claim C9: a single-shot request leaves every coordinator field
unchanged and addresses each of its events (chunk, completion, error)
to the requesting consumer only. -/
theorem claim_C9_single_shot_frame (s : BroadcasterState) (ws : Client) (text : String)
    (msgs : List InMsg) :
    (handle_single_shot s ws text msgs).1 = s ∧
      (((handle_single_shot s ws text msgs).2.map Prod.fst).all (fun c => c == ws))
        = true := by
  unfold handle_single_shot
  dsimp only
  have hacc := single_shot_foldl_targets ws
    ((receive_audio 0 0 msgs).1.takeWhile (fun c => !c.is_final))
    (SingleShotAcc.mk [] [] [] 0 0 []) (by rfl)
  cases h2 : (receive_audio 0 0 msgs).2 with
  | none =>
    refine ⟨rfl, ?_⟩
    simp only [List.map_append, List.all_append, hacc, Bool.true_and, List.map_cons,
      List.map_nil]
    simp
  | some e =>
    refine ⟨rfl, ?_⟩
    simp only [List.map_append, List.all_append, hacc, Bool.true_and, List.map_cons,
      List.map_nil]
    simp

theorem handle_finish_no_session_open (s : BroadcasterState) (fails : Client → Bool)
    (tm : List InMsg) : Effect.sessionOpened ∉ (handle_finish s fails tm).2 := by
  unfold handle_finish
  cases hses : s.el_session with
  | none => simp
  | some ses =>
    dsimp only
    cases hstr : s.is_streaming with
    | false => simp
    | true =>
      simp only [Bool.not_true, Bool.false_eq_true, if_false]
      intro hmem
      simp only [List.append_assoc, List.mem_append, List.mem_map, List.mem_singleton] at hmem
      rcases hmem with ⟨x, _, hx⟩ | ⟨x, _, hx⟩ | hx | hx | hx
      · exact Effect.noConfusion hx
      · exact Effect.noConfusion hx
      · revert hx
        split
        · intro hx
          simp only [List.mem_singleton] at hx
          exact Effect.noConfusion hx
        · intro hx
          simp at hx
      · exact Effect.noConfusion hx
      · revert hx
        unfold cleanup
        dsimp only
        split
        · intro hx
          simp only [List.mem_singleton] at hx
          exact Effect.noConfusion hx
        · intro hx
          simp at hx

/-- Claim C10: an inbound append_tts with empty text is a complete no-op
at the public interface - the coordinator state is unchanged and no
effect (no session open, no upstream send) is produced - and a session is
opened only by an append_tts carrying non-empty text. -/
theorem claim_C10_empty_append_noop :
    (∀ (s : BroadcasterState) (fails : Client → Bool) (tm : List InMsg),
      agent_step s fails tm (AgentMsg.append_tts "") = (s, [])) ∧
    (∀ (s : BroadcasterState) (fails : Client → Bool) (tm : List InMsg) (m : AgentMsg),
      Effect.sessionOpened ∈ (agent_step s fails tm m).2 →
      ∃ t, m = AgentMsg.append_tts t ∧ t ≠ "") := by
  constructor
  · intro s fails tm
    simp [agent_step]
  · intro s fails tm m hm
    cases m with
    | append_tts t =>
      by_cases ht : t = ""
      · subst ht
        simp [agent_step] at hm
      · exact ⟨t, rfl, ht⟩
    | finish_tts => exact absurd hm (handle_finish_no_session_open s fails tm)
    | ping => simp [agent_step] at hm
    | unknown => simp [agent_step] at hm

/-- Witness for claim C10: the empty append is a no-op on the idle state,
and the non-empty append that does open a session instantiates the
only-non-empty-fragment conclusion. -/
theorem claim_C10_empty_append_noop_witness :
    (agent_step c10_state (fun _ => false) [] (AgentMsg.append_tts "") = (c10_state, [])) ∧
      (∃ t, AgentMsg.append_tts "hi" = AgentMsg.append_tts t ∧ t ≠ "") :=
  ⟨claim_C10_empty_append_noop.1 c10_state (fun _ => false) [],
    claim_C10_empty_append_noop.2 c10_state (fun _ => false) [] (AgentMsg.append_tts "hi")
      (by decide)⟩

end TTSRelay
